import Mathlib

/-!
Shallow embedding of the FallingBlocks game core (files `Pieces.py` and
`FallingBlocks.py`) together with proofs about it.

Conventions of the embedding:
* Python `int` is modelled by `Int`; Python `%` and `//` on a positive
  right operand coincide with `Int.emod` and `Int.ediv`, which we use.
* Python list indexing `xs[i]` for `i ≥ 0` is modelled by `listAt xs i`
  returning `Option`, where `none` corresponds to a raised `IndexError`;
  indexing with a possibly negative index (only used when baking a piece
  into the grid) is modelled by `pyIndex`, which realises Python's
  wrap-around for negative indices and `none` for out-of-range ones.
* The arcade scheduler state is modelled by the field `sched : Option ℚ`:
  `some i` means a tick timer with interval `i` is installed
  (`arcade.schedule`), `none` means no timer (`arcade.unschedule`).
  Float literals of the source are modelled as exact rationals.
* `Piece.random` draws a uniformly random shape; nondeterminism is
  modelled by passing the freshly drawn piece as an explicit argument to
  the tick handler `_down`.
-/

/-- Cell enumeration from `Util.Cell` (as used by the two source files). -/
inductive Cell where
  | EMPTY : Cell
  | BLOCK : Cell
deriving DecidableEq

/-- Location from `Util.Location`: an integer (row, column) pair. -/
structure Location where
  row : Int
  column : Int
deriving DecidableEq

/-- Colors of the seven shape catalog entries (`arcade.color` constants). -/
inductive PieceColor where
  | AMBER | RED | ALMOND | INDIGO | AQUA | EUCALYPTUS | GRAY
deriving DecidableEq

/-- Alias from `Pieces.py`: `Position = List[List[Cell]]`. -/
abbrev Position := List (List Cell)

/-- Python `xs[i]` for a non-negative index `i`: `none` is `IndexError`. -/
def listAt : List α → Nat → Option α
  | [], _ => none
  | a :: _, 0 => some a
  | _ :: t, n + 1 => listAt t n

/-- Python index normalisation for `xs[i]` with `i` possibly negative:
wrap-around for `-len ≤ i < 0`, `none` (IndexError) outside `[-len, len)`. -/
def pyIndex (len : Nat) (i : Int) : Option Nat :=
  if 0 ≤ i then (if i < (len : Int) then some i.toNat else none)
  else (if -(len : Int) ≤ i then some (len - (-i).toNat) else none)

/-- The `Piece` class of `Pieces.py`: rotation frames, color, current
rotation index and anchor location. -/
structure Piece where
  positions : List Position
  color : PieceColor
  positionIndex : Int
  location : Location
deriving DecidableEq

namespace Piece

/-- `rotate_right`: `self._position_index = (self._position_index + 1) % len(self._positions)`. -/
def rotate_right (p : Piece) : Piece :=
  { p with positionIndex := (p.positionIndex + 1) % (p.positions.length : Int) }

/-- `rotate_left`: `self._position_index = (self._position_index - 1) % len(self._positions)`. -/
def rotate_left (p : Piece) : Piece :=
  { p with positionIndex := (p.positionIndex - 1) % (p.positions.length : Int) }

/-- `move_right`: `self._location.column += 1`. -/
def move_right (p : Piece) : Piece :=
  { p with location := { p.location with column := p.location.column + 1 } }

/-- `move_left`: `self._location.column -= 1`. -/
def move_left (p : Piece) : Piece :=
  { p with location := { p.location with column := p.location.column - 1 } }

/-- `move_down`: `self._location.row -= 1`. -/
def move_down (p : Piece) : Piece :=
  { p with location := { p.location with row := p.location.row - 1 } }

/-- `move_up`: `self._location.row += 1`. -/
def move_up (p : Piece) : Piece :=
  { p with location := { p.location with row := p.location.row + 1 } }

/-- The `position` property: `self._positions[self._position_index]`.
The index is kept in `[0, len)` by the rotation operations, where the
`toNat`/`getD` rendering agrees with Python indexing. -/
def position (p : Piece) : Position :=
  (listAt p.positions p.positionIndex.toNat).getD []

/-- Cell lookup `self.position[row][col]` used by `grid_locations`
(total rendering; all catalog frames are rectangular, so the defaults
are never hit on catalog pieces). -/
def cellAtD (pos : Position) (r c : Nat) : Cell :=
  (listAt ((listAt pos r).getD []) c).getD Cell.EMPTY

/-- The `grid_locations` property: the absolute board location of every
BLOCK cell of the current frame, offset by the anchor, enumerated in
row-major order exactly as the two nested `for` loops of the source. -/
def grid_locations (p : Piece) : List Location :=
  (List.range p.position.length).flatMap (fun r =>
    (List.range (p.position.headD []).length).filterMap (fun c =>
      if cellAtD p.position r c == Cell.BLOCK then
        some ⟨(r : Int) + p.location.row, (c : Int) + p.location.column⟩
      else none))

/-- Shape `I` of `Pieces.py`. -/
def I (location : Location) : Piece :=
  { positions :=
      [[[Cell.EMPTY, Cell.EMPTY, Cell.EMPTY, Cell.EMPTY],
        [Cell.EMPTY, Cell.EMPTY, Cell.EMPTY, Cell.EMPTY],
        [Cell.BLOCK, Cell.BLOCK, Cell.BLOCK, Cell.BLOCK],
        [Cell.EMPTY, Cell.EMPTY, Cell.EMPTY, Cell.EMPTY]],
       [[Cell.EMPTY, Cell.EMPTY, Cell.BLOCK, Cell.EMPTY],
        [Cell.EMPTY, Cell.EMPTY, Cell.BLOCK, Cell.EMPTY],
        [Cell.EMPTY, Cell.EMPTY, Cell.BLOCK, Cell.EMPTY],
        [Cell.EMPTY, Cell.EMPTY, Cell.BLOCK, Cell.EMPTY]]],
    color := PieceColor.AMBER,
    positionIndex := 0,
    location := location }

/-- Shape `O` of `Pieces.py`. -/
def O (location : Location) : Piece :=
  { positions :=
      [[[Cell.EMPTY, Cell.EMPTY, Cell.EMPTY, Cell.EMPTY],
        [Cell.EMPTY, Cell.BLOCK, Cell.BLOCK, Cell.EMPTY],
        [Cell.EMPTY, Cell.BLOCK, Cell.BLOCK, Cell.EMPTY],
        [Cell.EMPTY, Cell.EMPTY, Cell.EMPTY, Cell.EMPTY]]],
    color := PieceColor.RED,
    positionIndex := 0,
    location := location }

/-- Shape `J` of `Pieces.py`. -/
def J (location : Location) : Piece :=
  { positions :=
      [[[Cell.EMPTY, Cell.EMPTY, Cell.EMPTY],
        [Cell.BLOCK, Cell.BLOCK, Cell.BLOCK],
        [Cell.EMPTY, Cell.EMPTY, Cell.BLOCK]],
       [[Cell.EMPTY, Cell.BLOCK, Cell.EMPTY],
        [Cell.EMPTY, Cell.BLOCK, Cell.EMPTY],
        [Cell.BLOCK, Cell.BLOCK, Cell.EMPTY]],
       [[Cell.BLOCK, Cell.EMPTY, Cell.EMPTY],
        [Cell.BLOCK, Cell.BLOCK, Cell.BLOCK],
        [Cell.EMPTY, Cell.EMPTY, Cell.EMPTY]],
       [[Cell.EMPTY, Cell.BLOCK, Cell.BLOCK],
        [Cell.EMPTY, Cell.BLOCK, Cell.EMPTY],
        [Cell.EMPTY, Cell.BLOCK, Cell.EMPTY]]],
    color := PieceColor.ALMOND,
    positionIndex := 0,
    location := location }

/-- Shape `L` of `Pieces.py`. -/
def L (location : Location) : Piece :=
  { positions :=
      [[[Cell.EMPTY, Cell.EMPTY, Cell.EMPTY],
        [Cell.BLOCK, Cell.BLOCK, Cell.BLOCK],
        [Cell.BLOCK, Cell.EMPTY, Cell.EMPTY]],
       [[Cell.BLOCK, Cell.BLOCK, Cell.EMPTY],
        [Cell.EMPTY, Cell.BLOCK, Cell.EMPTY],
        [Cell.EMPTY, Cell.BLOCK, Cell.EMPTY]],
       [[Cell.EMPTY, Cell.EMPTY, Cell.BLOCK],
        [Cell.BLOCK, Cell.BLOCK, Cell.BLOCK],
        [Cell.EMPTY, Cell.EMPTY, Cell.EMPTY]],
       [[Cell.EMPTY, Cell.BLOCK, Cell.EMPTY],
        [Cell.EMPTY, Cell.BLOCK, Cell.EMPTY],
        [Cell.EMPTY, Cell.BLOCK, Cell.BLOCK]]],
    color := PieceColor.INDIGO,
    positionIndex := 0,
    location := location }

/-- Shape `S` of `Pieces.py`. -/
def S (location : Location) : Piece :=
  { positions :=
      [[[Cell.EMPTY, Cell.EMPTY, Cell.EMPTY],
        [Cell.EMPTY, Cell.BLOCK, Cell.BLOCK],
        [Cell.BLOCK, Cell.BLOCK, Cell.EMPTY]],
       [[Cell.EMPTY, Cell.BLOCK, Cell.EMPTY],
        [Cell.EMPTY, Cell.BLOCK, Cell.BLOCK],
        [Cell.EMPTY, Cell.EMPTY, Cell.BLOCK]]],
    color := PieceColor.AQUA,
    positionIndex := 0,
    location := location }

/-- Shape `T` of `Pieces.py`. -/
def T (location : Location) : Piece :=
  { positions :=
      [[[Cell.EMPTY, Cell.EMPTY, Cell.EMPTY],
        [Cell.BLOCK, Cell.BLOCK, Cell.BLOCK],
        [Cell.EMPTY, Cell.BLOCK, Cell.EMPTY]],
       [[Cell.EMPTY, Cell.BLOCK, Cell.EMPTY],
        [Cell.BLOCK, Cell.BLOCK, Cell.EMPTY],
        [Cell.EMPTY, Cell.BLOCK, Cell.EMPTY]],
       [[Cell.EMPTY, Cell.BLOCK, Cell.EMPTY],
        [Cell.BLOCK, Cell.BLOCK, Cell.BLOCK],
        [Cell.EMPTY, Cell.EMPTY, Cell.EMPTY]],
       [[Cell.EMPTY, Cell.BLOCK, Cell.EMPTY],
        [Cell.EMPTY, Cell.BLOCK, Cell.BLOCK],
        [Cell.EMPTY, Cell.BLOCK, Cell.EMPTY]]],
    color := PieceColor.EUCALYPTUS,
    positionIndex := 0,
    location := location }

/-- Shape `Z` of `Pieces.py`. -/
def Z (location : Location) : Piece :=
  { positions :=
      [[[Cell.EMPTY, Cell.EMPTY, Cell.EMPTY],
        [Cell.BLOCK, Cell.BLOCK, Cell.EMPTY],
        [Cell.EMPTY, Cell.BLOCK, Cell.BLOCK]],
       [[Cell.EMPTY, Cell.EMPTY, Cell.BLOCK],
        [Cell.EMPTY, Cell.BLOCK, Cell.BLOCK],
        [Cell.EMPTY, Cell.BLOCK, Cell.EMPTY]]],
    color := PieceColor.GRAY,
    positionIndex := 0,
    location := location }

end Piece

/-! ## The game session (`FallingBlocks.py`) -/

namespace FallingBlocks

/-- Constant `COLUMNS = 10`. -/
def COLUMNS : Nat := 10

/-- Constant `ROWS = 20`. -/
def ROWS : Nat := 20

/-- Constant `START_LOCATION = Location(ROWS - 2, COLUMNS // 2 - 2)`. -/
def START_LOCATION : Location := ⟨(ROWS : Int) - 2, (COLUMNS : Int) / 2 - 2⟩

/-- Constant `SCORING = [0, 10, 25, 75, 300]`. -/
def SCORING : List Int := [0, 10, 25, 75, 300]

/-- Constant `LINES_PER_LEVEL = 10`. -/
def LINES_PER_LEVEL : Int := 10

/-- Grid type: `self._grid`, a list of rows (row 0 bottom), each a list of cells. -/
abbrev Grid := List (List Cell)

/-- An all-empty grid row, `[Cell.EMPTY] * COLUMNS`. -/
def emptyRow : List Cell := List.replicate COLUMNS Cell.EMPTY

/-- The mutable state of the `FallingBlocks` window object, plus the arcade
scheduler state `sched` (see the module docstring). -/
structure State where
  grid : Grid
  piece : Piece
  next_piece : Piece
  level : Int
  lines : Int
  score : Int
  gameover : Bool
  sched : Option ℚ
deriving DecidableEq

/-- Body of the `for` loop of `_invalid` for one location: the four checks
in source order; the final `match` renders `try ... except IndexError: continue`. -/
def locationBad (g : Grid) (loc : Location) : Bool :=
  if loc.row < 0 then true
  else if loc.column < 0 then true
  else if (COLUMNS : Int) ≤ loc.column then true
  else
    match listAt g loc.row.toNat with
    | none => false
    | some row =>
      match listAt row loc.column.toNat with
      | none => false
      | some c => c == Cell.BLOCK

/-- The `_invalid` method: some occupied location of the current piece fails
one of the checks of `locationBad`. -/
def invalid (g : Grid) (p : Piece) : Bool :=
  p.grid_locations.any (locationBad g)

/-- One iteration of the bake loop of `_down`:
`self._grid[location.row][location.column] = Cell.BLOCK` under
`try ... except IndexError: continue` (Python negative indices wrap). -/
def bakeCell (g : Grid) (loc : Location) : Grid :=
  match pyIndex g.length loc.row with
  | none => g
  | some r =>
    let row := (listAt g r).getD []
    match pyIndex row.length loc.column with
    | none => g
    | some c => g.set r (row.set c Cell.BLOCK)

/-- The bake loop of `_down`: transfer every occupied location to the grid. -/
def bake (g : Grid) (locs : List Location) : Grid :=
  locs.foldl bakeCell g

/-- Row fullness test of `_check_lines`: `all(cell is Cell.BLOCK for cell in row)`. -/
def rowFull (row : List Cell) : Bool :=
  row.all (· == Cell.BLOCK)

/-- The `enumerate` loop of `_check_lines`, collecting (in increasing order,
starting from index `i`) the indices of full rows. -/
def fullIndicesAux (i : Nat) : Grid → List Nat
  | [] => []
  | row :: rest =>
    if rowFull row then i :: fullIndicesAux (i + 1) rest
    else fullIndicesAux (i + 1) rest

/-- `indices_for_removal` of `_check_lines`. -/
def fullIndices (g : Grid) : List Nat :=
  fullIndicesAux 0 g

/-- The removal loop of `_check_lines`: for each index in reversed order,
`del self._grid[index]` then `self._grid.append([Cell.EMPTY] * COLUMNS)`. -/
def removeLines (g : Grid) (idxs : List Nat) : Grid :=
  idxs.reverse.foldl (fun acc i => acc.eraseIdx i ++ [emptyRow]) g

/-- The `_check_lines` method: remove full rows, then update lines, score,
level and (on a level change) reschedule the tick timer. The lookup
`SCORING[lines_cleared]` is rendered with a default of 0; in Python it would
raise only if more than 4 rows were simultaneously full, which a locked
tetromino cannot cause. -/
def check_lines (s : State) : State :=
  let idxs := fullIndices s.grid
  let g := removeLines s.grid idxs
  let lines_cleared := idxs.length
  if 0 < lines_cleared then
    let lines := s.lines + (lines_cleared : Int)
    let score := s.score + (listAt SCORING lines_cleared).getD 0 * s.level
    let level := lines / LINES_PER_LEVEL + 1
    let s' := { s with grid := g, lines := lines, score := score, level := level }
    if s.level ≠ level then
      { s' with sched := some (max (1 - (level : ℚ) * (1 / 10)) (1 / 10)) }
    else s'
  else { s with grid := g }

/-- The `_down` tick handler. The freshly drawn random piece of
`_generate_pieces` is the explicit argument `newNext`. -/
def down (s : State) (newNext : Piece) : State :=
  let p1 := s.piece.move_down
  if invalid s.grid p1 then
    let p2 := p1.move_up
    let g2 := bake s.grid p2.grid_locations
    let s2 := { s with grid := g2, piece := s.next_piece, next_piece := newNext }
    let s3 :=
      if invalid g2 s2.piece then { s2 with sched := none, gameover := true }
      else s2
    check_lines s3
  else { s with piece := p1 }

/-- The five game commands dispatched by `on_key_press` (each has two key
bindings in the source; the mapping of key codes to commands is the shell's). -/
inductive Command where
  | MoveLeft | MoveRight | RotateRight | RotateLeft | HardDrop
deriving DecidableEq

/-- The `while True` loop of the hard-drop branch of `on_key_press`,
rendered with explicit fuel: move down; if invalid, undo once and stop. -/
def hardDropLoop (g : Grid) (p : Piece) : Nat → Piece
  | 0 => p
  | fuel + 1 =>
    let q := p.move_down
    if invalid g q then q.move_up
    else hardDropLoop g q fuel

/-- Fuel that always suffices for the hard-drop loop of a piece whose
current frame contains a block (see `exists_invalid_depth`); for a piece
with an all-EMPTY frame the Python loop would never terminate. -/
def hardDropFuel (p : Piece) : Nat :=
  p.location.row.toNat + p.position.length + 1

/-- The hard-drop branch of `on_key_press`. -/
def hardDrop (g : Grid) (p : Piece) : Piece :=
  hardDropLoop g p (hardDropFuel p)

/-- The `on_key_press` handler: optimistic apply-then-rollback for the four
directional/rotation commands, and the repeated-descent loop for hard drop. -/
def on_key_press (s : State) (c : Command) : State :=
  match c with
  | Command.MoveLeft =>
    let p := s.piece.move_left
    if invalid s.grid p then { s with piece := p.move_right } else { s with piece := p }
  | Command.MoveRight =>
    let p := s.piece.move_right
    if invalid s.grid p then { s with piece := p.move_left } else { s with piece := p }
  | Command.RotateRight =>
    let p := s.piece.rotate_right
    if invalid s.grid p then { s with piece := p.rotate_left } else { s with piece := p }
  | Command.RotateLeft =>
    let p := s.piece.rotate_left
    if invalid s.grid p then { s with piece := p.rotate_right } else { s with piece := p }
  | Command.HardDrop =>
    { s with piece := hardDrop s.grid s.piece }

/-- The `__init__` constructor: empty grid, the two freshly drawn random
pieces passed explicitly, statistics at their start values, and the tick
timer scheduled at `max(1 - level * 0.1, 0.1)`. -/
def initState (firstPiece secondPiece : Piece) : State :=
  { grid := List.replicate ROWS (List.replicate COLUMNS Cell.EMPTY),
    piece := firstPiece,
    next_piece := secondPiece,
    level := 1,
    lines := 0,
    score := 0,
    gameover := false,
    sched := some (max (1 - (1 : ℚ) * (1 / 10)) (1 / 10)) }

end FallingBlocks

/-! ## Lemmas about the piece mutators -/

namespace Piece

theorem move_down_move_up (p : Piece) : p.move_down.move_up = p := by
  cases p with
  | mk pos col idx loc => cases loc; simp [move_down, move_up]

theorem move_up_move_down (p : Piece) : p.move_up.move_down = p := by
  cases p with
  | mk pos col idx loc => cases loc; simp [move_up, move_down]

theorem move_left_move_right (p : Piece) : p.move_left.move_right = p := by
  cases p with
  | mk pos col idx loc => cases loc; simp [move_left, move_right]

theorem move_right_move_left (p : Piece) : p.move_right.move_left = p := by
  cases p with
  | mk pos col idx loc => cases loc; simp [move_right, move_left]

theorem emod_succ_pred (i n : Int) (h0 : 0 ≤ i) (h1 : i < n) :
    ((i + 1) % n - 1) % n = i := by
  have h2 : ((i + 1) % n - 1) % n = (i + 1 - 1) % n := by
    rw [sub_eq_add_neg, Int.emod_add_emod, ← sub_eq_add_neg]
  rw [h2]
  simpa using Int.emod_eq_of_lt h0 h1

theorem emod_pred_succ (i n : Int) (h0 : 0 ≤ i) (h1 : i < n) :
    ((i - 1) % n + 1) % n = i := by
  have h2 : ((i - 1) % n + 1) % n = (i - 1 + 1) % n := Int.emod_add_emod _ _ _
  rw [h2]
  simpa using Int.emod_eq_of_lt h0 h1

theorem rotate_right_rotate_left (p : Piece)
    (h0 : 0 ≤ p.positionIndex) (h1 : p.positionIndex < (p.positions.length : Int)) :
    p.rotate_right.rotate_left = p := by
  cases p with
  | mk pos col idx loc =>
    simp only [rotate_right, rotate_left] at *
    simp [emod_succ_pred idx (pos.length : Int) h0 h1]

theorem rotate_left_rotate_right (p : Piece)
    (h0 : 0 ≤ p.positionIndex) (h1 : p.positionIndex < (p.positions.length : Int)) :
    p.rotate_left.rotate_right = p := by
  cases p with
  | mk pos col idx loc =>
    simp only [rotate_left, rotate_right] at *
    simp [emod_pred_succ idx (pos.length : Int) h0 h1]

theorem rotate_right_iterate (p : Piece)
    (h0 : 0 ≤ p.positionIndex) (h1 : p.positionIndex < (p.positions.length : Int)) :
    ∀ m : Nat, rotate_right^[m] p =
      { p with positionIndex := (p.positionIndex + (m : Int)) % (p.positions.length : Int) }
  | 0 => by
    simp [Int.emod_eq_of_lt h0 h1]
  | m + 1 => by
    rw [Function.iterate_succ_apply', rotate_right_iterate p h0 h1 m]
    simp only [rotate_right]
    congr 1
    rw [Int.emod_add_emod]
    congr 1
    push_cast
    ring

theorem rotate_right_closed (p : Piece)
    (h0 : 0 ≤ p.positionIndex) (h1 : p.positionIndex < (p.positions.length : Int)) :
    rotate_right^[p.positions.length] p = p := by
  rw [rotate_right_iterate p h0 h1]
  have h2 : (p.positionIndex + (p.positions.length : Int)) % (p.positions.length : Int)
      = p.positionIndex := by
    rw [Int.add_emod_self]
    exact Int.emod_eq_of_lt h0 h1
  cases p with
  | mk pos col idx loc => simp_all

end Piece

/-- C7: applying `rotate_right` a number of times equal to the shape's frame
count returns the piece to its original frame, and each mutator is undone
exactly by its inverse (`rotate_left` after `rotate_right` and the other
directional/rotation pairs), restoring the piece state exactly. -/
theorem piece_mutator_inverses (p : Piece)
    (h0 : 0 ≤ p.positionIndex) (h1 : p.positionIndex < (p.positions.length : Int)) :
    Piece.rotate_right^[p.positions.length] p = p ∧
    p.rotate_right.rotate_left = p ∧
    p.rotate_left.rotate_right = p ∧
    p.move_left.move_right = p ∧
    p.move_right.move_left = p ∧
    p.move_down.move_up = p ∧
    p.move_up.move_down = p :=
  ⟨Piece.rotate_right_closed p h0 h1,
   Piece.rotate_right_rotate_left p h0 h1,
   Piece.rotate_left_rotate_right p h0 h1,
   Piece.move_left_move_right p,
   Piece.move_right_move_left p,
   Piece.move_down_move_up p,
   Piece.move_up_move_down p⟩

theorem piece_mutator_inverses_witness :
    ((0 : Int) ≤ (Piece.T ⟨18, 3⟩).positionIndex ∧
      (Piece.T ⟨18, 3⟩).positionIndex < ((Piece.T ⟨18, 3⟩).positions.length : Int)) ∧
    (Piece.rotate_right^[(Piece.T ⟨18, 3⟩).positions.length] (Piece.T ⟨18, 3⟩) = Piece.T ⟨18, 3⟩ ∧
     (Piece.T ⟨18, 3⟩).rotate_right.rotate_left = Piece.T ⟨18, 3⟩ ∧
     (Piece.T ⟨18, 3⟩).rotate_left.rotate_right = Piece.T ⟨18, 3⟩ ∧
     (Piece.T ⟨18, 3⟩).move_left.move_right = Piece.T ⟨18, 3⟩ ∧
     (Piece.T ⟨18, 3⟩).move_right.move_left = Piece.T ⟨18, 3⟩ ∧
     (Piece.T ⟨18, 3⟩).move_down.move_up = Piece.T ⟨18, 3⟩ ∧
     (Piece.T ⟨18, 3⟩).move_up.move_down = Piece.T ⟨18, 3⟩) :=
  ⟨⟨by decide, by decide⟩, piece_mutator_inverses (Piece.T ⟨18, 3⟩) (by decide) (by decide)⟩

/-! ## Lemmas about `grid_locations` -/

namespace Piece

theorem mem_grid_locations_iff (p : Piece) (loc : Location) :
    loc ∈ p.grid_locations ↔
      ∃ r c : Nat, r < p.position.length ∧ c < (p.position.headD []).length ∧
        cellAtD p.position r c = Cell.BLOCK ∧
        loc = ⟨(r : Int) + p.location.row, (c : Int) + p.location.column⟩ := by
  constructor
  · intro h
    rw [grid_locations] at h
    simp only [List.mem_flatMap, List.mem_filterMap, List.mem_range] at h
    obtain ⟨r, hr, c, hc, hsome⟩ := h
    by_cases hb : cellAtD p.position r c == Cell.BLOCK
    · rw [if_pos hb] at hsome
      exact ⟨r, c, hr, hc, by simpa using hb, (Option.some_inj.mp hsome).symm⟩
    · rw [if_neg hb] at hsome
      cases hsome
  · rintro ⟨r, c, hr, hc, hb, rfl⟩
    rw [grid_locations]
    simp only [List.mem_flatMap, List.mem_filterMap, List.mem_range]
    exact ⟨r, hr, c, hc, by rw [if_pos (by simp [hb])]⟩

/-- The list of the seven frame catalogs (`possible_pieces` of `Piece.random`). -/
def catalogPositions : List (List Position) :=
  [(I ⟨0, 0⟩).positions, (O ⟨0, 0⟩).positions, (J ⟨0, 0⟩).positions,
   (L ⟨0, 0⟩).positions, (S ⟨0, 0⟩).positions, (T ⟨0, 0⟩).positions,
   (Z ⟨0, 0⟩).positions]

/-- Number of BLOCK cells in a frame. -/
def blockCount (pos : Position) : Nat :=
  (pos.map (fun row => row.countP (· == Cell.BLOCK))).sum

/-- A reachable piece: its frames come from the shape catalog and its
rotation index is in range (as maintained by construction and rotation). -/
def reachable (p : Piece) : Prop :=
  p.positions ∈ catalogPositions ∧
    0 ≤ p.positionIndex ∧ p.positionIndex < (p.positions.length : Int)

instance (p : Piece) : Decidable (reachable p) := by
  unfold reachable; infer_instance

end Piece

/-- C10: every rotation frame of each of the seven shape variants contains
exactly four BLOCK cells, and for every reachable piece state
`grid_locations` returns a list of exactly four locations, each equal to
(frame row + anchor row, frame column + anchor column) of a BLOCK cell of
the current frame. -/
theorem grid_locations_four (p : Piece) (h : p.reachable) :
    (∀ ps ∈ Piece.catalogPositions, ∀ fr ∈ ps, Piece.blockCount fr = 4) ∧
    p.grid_locations.length = 4 ∧
    ∀ loc ∈ p.grid_locations, ∃ r c : Nat,
      Piece.cellAtD p.position r c = Cell.BLOCK ∧
      loc = ⟨(r : Int) + p.location.row, (c : Int) + p.location.column⟩ := by
  obtain ⟨hcat, h0, h1⟩ := h
  refine ⟨by decide, ?_, ?_⟩
  · obtain ⟨pos, col, idx, loc⟩ := p
    simp only [Piece.catalogPositions, Piece.I, Piece.O, Piece.J, Piece.L, Piece.S,
      Piece.T, Piece.Z, List.mem_cons, List.not_mem_nil, or_false] at hcat
    simp only at h0 h1
    rcases hcat with h | h | h | h | h | h | h <;> subst h <;> simp at h1 <;>
      interval_cases idx <;> rfl
  · intro loc hl
    rw [Piece.mem_grid_locations_iff] at hl
    obtain ⟨r, c, _, _, hb, rfl⟩ := hl
    exact ⟨r, c, hb, rfl⟩

theorem grid_locations_four_witness :
    (Piece.J ⟨5, 2⟩).reachable ∧
    ((∀ ps ∈ Piece.catalogPositions, ∀ fr ∈ ps, Piece.blockCount fr = 4) ∧
     (Piece.J ⟨5, 2⟩).grid_locations.length = 4 ∧
     ∀ loc ∈ (Piece.J ⟨5, 2⟩).grid_locations, ∃ r c : Nat,
       Piece.cellAtD (Piece.J ⟨5, 2⟩).position r c = Cell.BLOCK ∧
       loc = ⟨(r : Int) + (Piece.J ⟨5, 2⟩).location.row,
              (c : Int) + (Piece.J ⟨5, 2⟩).location.column⟩) :=
  ⟨by decide, grid_locations_four (Piece.J ⟨5, 2⟩) (by decide)⟩

/-! ## Lemmas about `listAt` and the validity check -/

theorem listAt_eq_none_iff (l : List α) (n : Nat) : listAt l n = none ↔ l.length ≤ n := by
  induction l generalizing n with
  | nil => simp [listAt]
  | cons a t ih =>
    cases n with
    | zero => simp [listAt]
    | succ m => simpa [listAt] using ih m

theorem exists_listAt_eq_some_of_lt (l : List α) (n : Nat) (h : n < l.length) :
    ∃ a, listAt l n = some a ∧ a ∈ l := by
  induction l generalizing n with
  | nil => simp at h
  | cons a t ih =>
    cases n with
    | zero => exact ⟨a, rfl, List.mem_cons_self a t⟩
    | succ m =>
      obtain ⟨b, hb, hmem⟩ := ih m (by simpa using h)
      exact ⟨b, hb, List.mem_cons_of_mem a hmem⟩

namespace FallingBlocks

theorem locationBad_iff (g : Grid) (loc : Location)
    (hrows : g.length = ROWS)
    (hcols : ∀ row ∈ g, row.length = COLUMNS) :
    locationBad g loc = true ↔
      loc.row < 0 ∨ loc.column < 0 ∨ (COLUMNS : Int) ≤ loc.column ∨
      (0 ≤ loc.row ∧ loc.row < (ROWS : Int) ∧
        Piece.cellAtD g loc.row.toNat loc.column.toNat = Cell.BLOCK) := by
  rw [locationBad]
  by_cases hr : loc.row < 0
  · simp [hr]
  by_cases hc : loc.column < 0
  · simp [hr, hc]
  by_cases hC : (COLUMNS : Int) ≤ loc.column
  · simp [hr, hc, hC]
  simp only [if_neg hr, if_neg hc, if_neg hC]
  push_neg at hr hc hC
  by_cases hR : loc.row < (ROWS : Int)
  · have hlt : loc.row.toNat < g.length := by rw [hrows]; omega
    obtain ⟨rowl, hrow, hmem⟩ := exists_listAt_eq_some_of_lt g loc.row.toNat hlt
    have hlen : rowl.length = COLUMNS := hcols rowl hmem
    have hclt : loc.column.toNat < rowl.length := by rw [hlen]; omega
    obtain ⟨cell, hcell, _⟩ := exists_listAt_eq_some_of_lt rowl loc.column.toNat hclt
    have hcd : Piece.cellAtD g loc.row.toNat loc.column.toNat = cell := by
      simp [Piece.cellAtD, hrow, hcell]
    simp only [hrow, hcell, beq_iff_eq, hcd]
    constructor
    · intro hcb
      exact Or.inr (Or.inr (Or.inr ⟨hr, hR, hcb⟩))
    · rintro (h | h | h | ⟨-, -, h⟩) <;> first | exact h | omega
  · have hnone : listAt g loc.row.toNat = none := by
      rw [listAt_eq_none_iff, hrows]
      omega
    rw [hnone]
    simp only [Bool.false_eq_true, false_iff]
    push_neg
    refine ⟨by omega, by omega, by omega, fun _ h2 => absurd h2 hR⟩

/-- C1: the validity check returns true iff some absolute location occupied
by the current piece has row < 0, or column < 0, or column ≥ COLUMNS, or has
row within [0, ROWS) and a BLOCK grid cell at that location; a row ≥ ROWS is
never by itself a cause of invalidity (the `IndexError` is silently
swallowed after the out-of-range checks have run). -/
theorem invalid_iff_bad_location (g : Grid) (p : Piece)
    (hrows : g.length = ROWS)
    (hcols : ∀ row ∈ g, row.length = COLUMNS) :
    invalid g p = true ↔
      ∃ loc ∈ p.grid_locations,
        loc.row < 0 ∨ loc.column < 0 ∨ (COLUMNS : Int) ≤ loc.column ∨
        (0 ≤ loc.row ∧ loc.row < (ROWS : Int) ∧
          Piece.cellAtD g loc.row.toNat loc.column.toNat = Cell.BLOCK) := by
  rw [invalid, List.any_eq_true]
  constructor
  · rintro ⟨loc, hmem, hbad⟩
    exact ⟨loc, hmem, (locationBad_iff g loc hrows hcols).mp hbad⟩
  · rintro ⟨loc, hmem, hbad⟩
    exact ⟨loc, hmem, (locationBad_iff g loc hrows hcols).mpr hbad⟩

theorem invalid_iff_bad_location_witness :
    ((List.replicate ROWS emptyRow : Grid).length = ROWS ∧
      (∀ row ∈ (List.replicate ROWS emptyRow : Grid), row.length = COLUMNS)) ∧
    (invalid (List.replicate ROWS emptyRow) (Piece.O ⟨-2, 3⟩) = true ↔
      ∃ loc ∈ (Piece.O ⟨-2, 3⟩).grid_locations,
        loc.row < 0 ∨ loc.column < 0 ∨ (COLUMNS : Int) ≤ loc.column ∨
        (0 ≤ loc.row ∧ loc.row < (ROWS : Int) ∧
          Piece.cellAtD (List.replicate ROWS emptyRow) loc.row.toNat loc.column.toNat
            = Cell.BLOCK)) :=
  ⟨⟨by decide, by decide⟩,
   invalid_iff_bad_location (List.replicate ROWS emptyRow) (Piece.O ⟨-2, 3⟩)
     (by decide) (by decide)⟩

end FallingBlocks

/-! ## Lemmas about line clearing -/

namespace FallingBlocks

theorem fullIndicesAux_succ (g : Grid) (k : Nat) :
    fullIndicesAux (k + 1) g = (fullIndicesAux k g).map (· + 1) := by
  induction g generalizing k with
  | nil => rfl
  | cons row rest ih =>
    by_cases h : rowFull row <;> simp [fullIndicesAux, h, ih]

theorem fullIndices_cons (row : List Cell) (rest : Grid) :
    fullIndices (row :: rest) =
      if rowFull row then 0 :: (fullIndices rest).map (· + 1)
      else (fullIndices rest).map (· + 1) := by
  by_cases h : rowFull row <;> simp [fullIndices, fullIndicesAux, h, fullIndicesAux_succ]

theorem length_fullIndices (g : Grid) : (fullIndices g).length = g.countP rowFull := by
  induction g with
  | nil => rfl
  | cons row rest ih =>
    rw [fullIndices_cons]
    by_cases h : rowFull row <;> simp [h, ih, List.countP_cons]

theorem foldl_erase_shift (js : List Nat) (g : Grid) (r : List Cell) :
    (js.map (· + 1)).foldl (fun acc i => acc.eraseIdx i ++ [emptyRow]) (r :: g)
      = r :: js.foldl (fun acc i => acc.eraseIdx i ++ [emptyRow]) g := by
  induction js generalizing g with
  | nil => rfl
  | cons j js ih =>
    simp only [List.map_cons, List.foldl_cons, List.eraseIdx_cons_succ, List.cons_append]
    exact ih (g.eraseIdx j ++ [emptyRow])

theorem removeLines_fullIndices (g : Grid) :
    removeLines g (fullIndices g) =
      g.filter (fun r => !rowFull r) ++ List.replicate (g.countP rowFull) emptyRow := by
  induction g with
  | nil => rfl
  | cons r t ih =>
    rw [fullIndices_cons]
    by_cases h : rowFull r
    · rw [if_pos h]
      rw [removeLines] at ih ⊢
      simp only [List.reverse_cons, List.foldl_append, List.foldl_cons,
        List.foldl_nil, ← List.map_reverse]
      rw [foldl_erase_shift, ih]
      simp [List.filter_cons, h, List.countP_cons, List.replicate_succ',
        List.append_assoc]
    · rw [if_neg h]
      rw [removeLines] at ih ⊢
      simp only [← List.map_reverse]
      rw [foldl_erase_shift, ih]
      simp [List.filter_cons, h, List.countP_cons]

theorem check_lines_grid (s : State) :
    (check_lines s).grid = removeLines s.grid (fullIndices s.grid) := by
  simp only [check_lines]
  split
  · split <;> rfl
  · rfl

theorem check_lines_lines (s : State) :
    (check_lines s).lines =
      if 0 < (fullIndices s.grid).length then
        s.lines + ((fullIndices s.grid).length : Int)
      else s.lines := by
  simp only [check_lines]
  split
  · split <;> simp_all
  · simp_all

theorem check_lines_score (s : State) :
    (check_lines s).score =
      if 0 < (fullIndices s.grid).length then
        s.score + (listAt SCORING (fullIndices s.grid).length).getD 0 * s.level
      else s.score := by
  simp only [check_lines]
  split
  · split <;> simp_all
  · simp_all

theorem check_lines_level (s : State) :
    (check_lines s).level =
      if 0 < (fullIndices s.grid).length then
        (s.lines + ((fullIndices s.grid).length : Int)) / LINES_PER_LEVEL + 1
      else s.level := by
  simp only [check_lines]
  split
  · split <;> simp_all
  · simp_all

theorem check_lines_sched (s : State) :
    (check_lines s).sched =
      if 0 < (fullIndices s.grid).length ∧
          s.level ≠ (s.lines + ((fullIndices s.grid).length : Int)) / LINES_PER_LEVEL + 1 then
        some (max (1 - (((s.lines + ((fullIndices s.grid).length : Int)) / LINES_PER_LEVEL + 1 : Int) : ℚ)
                * (1 / 10)) (1 / 10))
      else s.sched := by
  simp only [check_lines]
  by_cases h1 : 0 < (fullIndices s.grid).length
  · by_cases h2 : s.level = (s.lines + ((fullIndices s.grid).length : Int)) / LINES_PER_LEVEL + 1
    · simp [h1, h2]
    · simp [h1, h2]
  · simp [h1]

theorem check_lines_gameover (s : State) : (check_lines s).gameover = s.gameover := by
  simp only [check_lines]
  split
  · split <;> rfl
  · rfl

theorem check_lines_piece (s : State) : (check_lines s).piece = s.piece := by
  simp only [check_lines]
  split
  · split <;> rfl
  · rfl

theorem check_lines_next_piece (s : State) : (check_lines s).next_piece = s.next_piece := by
  simp only [check_lines]
  split
  · split <;> rfl
  · rfl

end FallingBlocks

namespace FallingBlocks

/-- C4: on a grid in which exactly two rows are full (rows `A.length` and
`A.length + 1 + B.length`; every other row is not full), one run of
line-clear removes exactly those two rows, appends two all-EMPTY rows at the
top, preserves the relative order of the surviving rows, keeps the grid at
ROWS rows, adds 2 to the lines counter and `SCORING[2] * level` to the
score. -/
theorem check_lines_double_clear (s : State) (A B C : Grid) (f1 f2 : List Cell)
    (hg : s.grid = A ++ f1 :: (B ++ f2 :: C))
    (h1 : rowFull f1 = true) (h2 : rowFull f2 = true)
    (hA : ∀ r ∈ A, rowFull r = false) (hB : ∀ r ∈ B, rowFull r = false)
    (hC : ∀ r ∈ C, rowFull r = false)
    (hlen : s.grid.length = ROWS) :
    (check_lines s).grid = A ++ B ++ C ++ [emptyRow, emptyRow] ∧
    (check_lines s).grid.length = ROWS ∧
    (check_lines s).lines = s.lines + 2 ∧
    (check_lines s).score = s.score + (listAt SCORING 2).getD 0 * s.level := by
  have hcA : A.countP rowFull = 0 := List.countP_eq_zero.mpr (by intro a ha; simp [hA a ha])
  have hcB : B.countP rowFull = 0 := List.countP_eq_zero.mpr (by intro a ha; simp [hB a ha])
  have hcC : C.countP rowFull = 0 := List.countP_eq_zero.mpr (by intro a ha; simp [hC a ha])
  have hcount : s.grid.countP rowFull = 2 := by
    rw [hg]
    simp [List.countP_append, List.countP_cons, h1, h2, hcA, hcB, hcC]
  have hn : (fullIndices s.grid).length = 2 := by
    rw [length_fullIndices, hcount]
  have hfA : A.filter (fun r => !rowFull r) = A :=
    List.filter_eq_self.mpr (by intro a ha; simp [hA a ha])
  have hfB : B.filter (fun r => !rowFull r) = B :=
    List.filter_eq_self.mpr (by intro a ha; simp [hB a ha])
  have hfC : C.filter (fun r => !rowFull r) = C :=
    List.filter_eq_self.mpr (by intro a ha; simp [hC a ha])
  have hgrid : (check_lines s).grid = A ++ B ++ C ++ [emptyRow, emptyRow] := by
    rw [check_lines_grid, removeLines_fullIndices, hcount, hg]
    simp [List.filter_append, List.filter_cons, h1, h2, hfA, hfB, hfC,
      List.replicate_succ, List.append_assoc]
  refine ⟨hgrid, ?_, ?_, ?_⟩
  · have hlen2 := hlen
    rw [hg] at hlen2
    simp only [List.length_append, List.length_cons] at hlen2
    rw [hgrid]
    simp only [List.length_append, List.length_cons, List.length_nil]
    omega
  · rw [check_lines_lines, if_pos (by omega), hn]
    norm_num
  · rw [check_lines_score, if_pos (by omega), hn]

end FallingBlocks

namespace FallingBlocks

/-- An all-BLOCK (full) grid row. -/
def fullRowEx : List Cell := List.replicate COLUMNS Cell.BLOCK

/-- Example grid with exactly its two bottom rows full. -/
def gridTwoFull : Grid := fullRowEx :: fullRowEx :: List.replicate 18 emptyRow

/-- Example session state sitting on `gridTwoFull`. -/
def stateTwoFull : State :=
  { grid := gridTwoFull,
    piece := Piece.O START_LOCATION,
    next_piece := Piece.I START_LOCATION,
    level := 1,
    lines := 0,
    score := 0,
    gameover := false,
    sched := some (9 / 10) }

theorem check_lines_double_clear_witness :
    (stateTwoFull.grid = ([] : Grid) ++ fullRowEx :: (([] : Grid) ++ fullRowEx :: List.replicate 18 emptyRow) ∧
      rowFull fullRowEx = true ∧
      (∀ r ∈ ([] : Grid), rowFull r = false) ∧
      (∀ r ∈ List.replicate 18 emptyRow, rowFull r = false) ∧
      stateTwoFull.grid.length = ROWS) ∧
    ((check_lines stateTwoFull).grid
        = ([] : Grid) ++ ([] : Grid) ++ List.replicate 18 emptyRow ++ [emptyRow, emptyRow] ∧
      (check_lines stateTwoFull).grid.length = ROWS ∧
      (check_lines stateTwoFull).lines = stateTwoFull.lines + 2 ∧
      (check_lines stateTwoFull).score
        = stateTwoFull.score + (listAt SCORING 2).getD 0 * stateTwoFull.level) :=
  ⟨⟨by decide, by decide, by decide, by decide, by decide⟩,
   check_lines_double_clear stateTwoFull [] [] (List.replicate 18 emptyRow) fullRowEx fullRowEx
     (by decide) (by decide) (by decide) (by decide) (by decide) (by decide) (by decide)⟩

end FallingBlocks

namespace FallingBlocks

/-- C5: after a line-clear pass clearing `n > 0` lines (with `n ≤ 4`, the
most one locked piece can complete), the level equals
`floor(total_lines / 10) + 1`; if the new line total crosses a multiple of
10, the level rises by exactly 1 and the tick timer is rescheduled to
`max(1 - level * 0.1, 0.1)`; otherwise level and timer are unchanged. -/
theorem check_lines_level_progression (s : State)
    (hn0 : 0 < (fullIndices s.grid).length)
    (hn4 : (fullIndices s.grid).length ≤ 4)
    (_hlines : 0 ≤ s.lines)
    (hlevel : s.level = s.lines / LINES_PER_LEVEL + 1) :
    (check_lines s).lines = s.lines + ((fullIndices s.grid).length : Int) ∧
    (check_lines s).level = (check_lines s).lines / LINES_PER_LEVEL + 1 ∧
    ((s.lines + ((fullIndices s.grid).length : Int)) / LINES_PER_LEVEL
        ≠ s.lines / LINES_PER_LEVEL →
      (check_lines s).level = s.level + 1 ∧
      (check_lines s).sched
        = some (max (1 - ((check_lines s).level : ℚ) * (1 / 10)) (1 / 10))) ∧
    ((s.lines + ((fullIndices s.grid).length : Int)) / LINES_PER_LEVEL
        = s.lines / LINES_PER_LEVEL →
      (check_lines s).level = s.level ∧ (check_lines s).sched = s.sched) := by
  have hlines' : (check_lines s).lines = s.lines + ((fullIndices s.grid).length : Int) := by
    rw [check_lines_lines, if_pos hn0]
  have hlevel' : (check_lines s).level
      = (s.lines + ((fullIndices s.grid).length : Int)) / LINES_PER_LEVEL + 1 := by
    rw [check_lines_level, if_pos hn0]
  refine ⟨hlines', by rw [hlevel', hlines'], ?_, ?_⟩
  · intro hcross
    have hne : s.level ≠ (s.lines + ((fullIndices s.grid).length : Int)) / LINES_PER_LEVEL + 1 := by
      rw [hlevel]
      intro h
      exact hcross (by omega)
    constructor
    · rw [hlevel', hlevel]
      simp only [LINES_PER_LEVEL] at *
      omega
    · rw [check_lines_sched, if_pos ⟨hn0, hne⟩, hlevel']
  · intro hsame
    have heq : s.level = (s.lines + ((fullIndices s.grid).length : Int)) / LINES_PER_LEVEL + 1 := by
      rw [hlevel, hsame]
    constructor
    · rw [hlevel', ← heq]
    · rw [check_lines_sched, if_neg (by simp [heq])]

/-- Example session state with 8 lines already cleared, sitting on
`gridTwoFull`, so one more double clear crosses the first multiple of 10. -/
def stateEightLines : State :=
  { grid := gridTwoFull,
    piece := Piece.O START_LOCATION,
    next_piece := Piece.I START_LOCATION,
    level := 1,
    lines := 8,
    score := 120,
    gameover := false,
    sched := some (9 / 10) }

theorem check_lines_level_progression_witness :
    (0 < (fullIndices stateEightLines.grid).length ∧
      (fullIndices stateEightLines.grid).length ≤ 4 ∧
      0 ≤ stateEightLines.lines ∧
      stateEightLines.level = stateEightLines.lines / LINES_PER_LEVEL + 1) ∧
    ((check_lines stateEightLines).lines
        = stateEightLines.lines + ((fullIndices stateEightLines.grid).length : Int) ∧
      (check_lines stateEightLines).level
        = (check_lines stateEightLines).lines / LINES_PER_LEVEL + 1 ∧
      ((stateEightLines.lines + ((fullIndices stateEightLines.grid).length : Int)) / LINES_PER_LEVEL
          ≠ stateEightLines.lines / LINES_PER_LEVEL →
        (check_lines stateEightLines).level = stateEightLines.level + 1 ∧
        (check_lines stateEightLines).sched
          = some (max (1 - ((check_lines stateEightLines).level : ℚ) * (1 / 10)) (1 / 10))) ∧
      ((stateEightLines.lines + ((fullIndices stateEightLines.grid).length : Int)) / LINES_PER_LEVEL
          = stateEightLines.lines / LINES_PER_LEVEL →
        (check_lines stateEightLines).level = stateEightLines.level ∧
        (check_lines stateEightLines).sched = stateEightLines.sched)) :=
  ⟨⟨by decide, by decide, by decide, by decide⟩,
   check_lines_level_progression stateEightLines (by decide) (by decide) (by decide) (by decide)⟩

end FallingBlocks

/-! ## Lemmas about the hard-drop loop -/

namespace Piece

/-- Specification abbreviation: the piece with its anchor row lowered by `k`
(the result of `k` `move_down` calls). -/
def downBy (p : Piece) (k : Nat) : Piece :=
  { p with location := { p.location with row := p.location.row - (k : Int) } }

theorem downBy_zero (p : Piece) : p.downBy 0 = p := by
  cases p with
  | mk pos col idx loc => cases loc; simp [downBy]

theorem move_down_eq_downBy_one (p : Piece) : p.move_down = p.downBy 1 := by
  cases p with
  | mk pos col idx loc => cases loc; simp [move_down, downBy]

theorem downBy_downBy (p : Piece) (a b : Nat) : (p.downBy a).downBy b = p.downBy (a + b) := by
  cases p with
  | mk pos col idx loc =>
    cases loc
    simp only [downBy, Piece.mk.injEq, Location.mk.injEq, and_true, true_and]
    push_cast
    ring

theorem downBy_position (p : Piece) (k : Nat) : (p.downBy k).position = p.position := rfl

theorem downBy_mem_grid_locations (p : Piece) (k : Nat) (loc : Location)
    (h : loc ∈ p.grid_locations) :
    (⟨loc.row - (k : Int), loc.column⟩ : Location) ∈ (p.downBy k).grid_locations := by
  rw [mem_grid_locations_iff] at h ⊢
  obtain ⟨r, c, hr, hc, hb, rfl⟩ := h
  refine ⟨r, c, hr, hc, hb, ?_⟩
  simp only [downBy, Location.mk.injEq]
  constructor
  · ring
  · trivial

end Piece

namespace FallingBlocks

theorem invalid_of_neg_row (g : Grid) (q : Piece) (loc : Location)
    (hmem : loc ∈ q.grid_locations) (hneg : loc.row < 0) : invalid g q = true := by
  rw [invalid, List.any_eq_true]
  exact ⟨loc, hmem, by simp [locationBad, hneg]⟩

theorem hardDropLoop_succ (g : Grid) (p : Piece) (f : Nat) :
    hardDropLoop g p (f + 1) =
      if invalid g p.move_down then p.move_down.move_up else hardDropLoop g p.move_down f := rfl

theorem hardDropLoop_eq_downBy (g : Grid) (k : Nat) :
    ∀ (p : Piece) (fuel : Nat), k < fuel →
      (∀ j : Nat, j < k → invalid g (p.downBy (j + 1)) = false) →
      invalid g (p.downBy (k + 1)) = true →
      hardDropLoop g p fuel = p.downBy k := by
  induction k with
  | zero =>
    intro p fuel hfuel _ hinv
    cases fuel with
    | zero => omega
    | succ f =>
      have hinv' : invalid g p.move_down = true := by
        rw [Piece.move_down_eq_downBy_one]
        exact hinv
      rw [hardDropLoop_succ, hinv']
      simp [Piece.move_down_move_up, Piece.downBy_zero]
  | succ k ih =>
    intro p fuel hfuel hvalid hinv
    cases fuel with
    | zero => omega
    | succ f =>
      have h0 : invalid g p.move_down = false := by
        rw [Piece.move_down_eq_downBy_one]
        exact hvalid 0 (Nat.succ_pos k)
      rw [hardDropLoop_succ, h0]
      simp only [Bool.false_eq_true, if_false]
      have harg1 : ∀ j : Nat, j < k → invalid g ((p.downBy 1).downBy (j + 1)) = false := by
        intro j hj
        rw [Piece.downBy_downBy]
        have h12 : 1 + (j + 1) = j + 1 + 1 := by omega
        rw [h12]
        exact hvalid (j + 1) (by omega)
      have harg2 : invalid g ((p.downBy 1).downBy (k + 1)) = true := by
        rw [Piece.downBy_downBy]
        have h12 : 1 + (k + 1) = k + 1 + 1 := by omega
        rw [h12]
        exact hinv
      have hres : hardDropLoop g (p.downBy 1) f = (p.downBy 1).downBy k :=
        ih (p.downBy 1) f (by omega) harg1 harg2
      rw [Piece.move_down_eq_downBy_one, hres, Piece.downBy_downBy]
      have h12 : 1 + k = k + 1 := by omega
      rw [h12]

theorem exists_invalid_depth (g : Grid) (p : Piece) (h : p.grid_locations ≠ []) :
    ∃ m : Nat, m < hardDropFuel p ∧ invalid g (p.downBy (m + 1)) = true := by
  obtain ⟨loc, hmem⟩ := List.exists_mem_of_ne_nil p.grid_locations h
  have hform := (Piece.mem_grid_locations_iff p loc).mp hmem
  obtain ⟨r, c, hr, _, _, hloc⟩ := hform
  refine ⟨loc.row.toNat, ?_, ?_⟩
  · rw [hardDropFuel]
    have : loc.row = (r : Int) + p.location.row := by rw [hloc]
    omega
  · apply invalid_of_neg_row g _ ⟨loc.row - ((loc.row.toNat + 1 : Nat) : Int), loc.column⟩
      (Piece.downBy_mem_grid_locations p (loc.row.toNat + 1) loc hmem)
    simp only
    omega

/-- The hard-drop loop's exact behaviour for a piece whose frame occupies at
least one cell: it stops at the first depth whose next step down is invalid. -/
theorem hardDrop_spec (g : Grid) (p : Piece) (h : p.grid_locations ≠ []) :
    ∃ k : Nat,
      hardDrop g p = p.downBy k ∧
      invalid g (p.downBy (k + 1)) = true ∧
      ∀ j : Nat, j < k → invalid g (p.downBy (j + 1)) = false := by
  obtain ⟨m, hmlt, hminv⟩ := exists_invalid_depth g p h
  have hex : ∃ j : Nat, invalid g (p.downBy (j + 1)) = true := ⟨m, hminv⟩
  have hk : invalid g (p.downBy (Nat.find hex + 1)) = true := Nat.find_spec hex
  have hmin : ∀ j : Nat, j < Nat.find hex → invalid g (p.downBy (j + 1)) = false := by
    intro j hj
    have := Nat.find_min hex hj
    simpa using this
  have hkm : Nat.find hex ≤ m := Nat.find_min' hex hminv
  exact ⟨Nat.find hex,
    hardDropLoop_eq_downBy g (Nat.find hex) p (hardDropFuel p) (by omega) hmin hk, hk, hmin⟩

end FallingBlocks

namespace FallingBlocks

/-- C9: for a piece whose current frame occupies at least one cell, the
hard-drop repeated-descent loop terminates: each iteration lowers the anchor
row by exactly 1, a piece all of whose occupied locations have row < 0 is
reported invalid, and there is a finite depth `k` at which the loop stops,
independently of any sufficiently large fuel. -/
theorem hardDrop_loop_terminates (g : Grid) (p : Piece)
    (h : p.grid_locations ≠ []) :
    (∀ q : Piece, q.move_down.location.row = q.location.row - 1) ∧
    (∀ q : Piece, q.grid_locations ≠ [] →
      (∀ loc ∈ q.grid_locations, loc.row < 0) → invalid g q = true) ∧
    ∃ k : Nat, invalid g (p.downBy (k + 1)) = true ∧
      ∀ fuel : Nat, k < fuel → hardDropLoop g p fuel = p.downBy k := by
  refine ⟨fun q => rfl, ?_, ?_⟩
  · intro q hne hall
    obtain ⟨loc, hmem⟩ := List.exists_mem_of_ne_nil _ hne
    exact invalid_of_neg_row g q loc hmem (hall loc hmem)
  · obtain ⟨m, _, hminv⟩ := exists_invalid_depth g p h
    have hex : ∃ j : Nat, invalid g (p.downBy (j + 1)) = true := ⟨m, hminv⟩
    refine ⟨Nat.find hex, Nat.find_spec hex, ?_⟩
    intro fuel hf
    exact hardDropLoop_eq_downBy g (Nat.find hex) p fuel hf
      (fun j hj => by simpa using Nat.find_min hex hj) (Nat.find_spec hex)

theorem hardDrop_loop_terminates_witness :
    (Piece.O ⟨5, 3⟩).grid_locations ≠ [] ∧
    ((∀ q : Piece, q.move_down.location.row = q.location.row - 1) ∧
     (∀ q : Piece, q.grid_locations ≠ [] →
       (∀ loc ∈ q.grid_locations, loc.row < 0) →
         invalid (List.replicate ROWS emptyRow) q = true) ∧
     ∃ k : Nat, invalid (List.replicate ROWS emptyRow) ((Piece.O ⟨5, 3⟩).downBy (k + 1)) = true ∧
       ∀ fuel : Nat, k < fuel →
         hardDropLoop (List.replicate ROWS emptyRow) (Piece.O ⟨5, 3⟩) fuel
           = (Piece.O ⟨5, 3⟩).downBy k) :=
  ⟨by decide,
   hardDrop_loop_terminates (List.replicate ROWS emptyRow) (Piece.O ⟨5, 3⟩) (by decide)⟩

/-- Grid row with BLOCK in columns 1 and 2 only (an overhang shelf). -/
def overhangRow : List Cell :=
  [Cell.EMPTY, Cell.BLOCK, Cell.BLOCK, Cell.EMPTY, Cell.EMPTY,
   Cell.EMPTY, Cell.EMPTY, Cell.EMPTY, Cell.EMPTY, Cell.EMPTY]

/-- Grid that is empty except for a shelf at row 5 under which rows 0-4 are
free: a piece dropped from above rests on the shelf although lower valid
placements exist beneath it. -/
def gridOverhang : Grid :=
  List.replicate 5 emptyRow ++ [overhangRow] ++ List.replicate 14 emptyRow

/-- Session state whose current `O` piece sits above the shelf of
`gridOverhang`. -/
def stateOverhang : State :=
  { grid := gridOverhang,
    piece := Piece.O ⟨10, 0⟩,
    next_piece := Piece.I START_LOCATION,
    level := 1,
    lines := 0,
    score := 0,
    gameover := false,
    sched := some (9 / 10) }

theorem hardDrop_not_lowest_row :
    invalid stateOverhang.grid stateOverhang.piece = false ∧
    (on_key_press stateOverhang Command.HardDrop).piece.location.row = 5 ∧
    (on_key_press stateOverhang Command.HardDrop).piece.location.column
      = stateOverhang.piece.location.column ∧
    invalid stateOverhang.grid { stateOverhang.piece with location := ⟨-1, 0⟩ } = false ∧
    ((-1 : Int) < 5) :=
  ⟨by decide, by decide, by decide, by decide, by decide⟩

/-- C6 (amended): on a valid state, hard drop moves the piece straight down
to the resting row of its contiguous descent: the final placement is valid,
every intermediate placement is valid, the placement one row lower is
invalid, column and rotation index are unchanged, and nothing else of the
session state changes (no locking). Because descent stops at the first
obstacle, this row need not be the globally lowest valid row (see
`hardDrop_not_lowest_row`). -/
theorem hardDrop_rest_position (s : State)
    (hvalid : invalid s.grid s.piece = false)
    (hblocks : s.piece.grid_locations ≠ []) :
    ∃ k : Nat,
      (on_key_press s Command.HardDrop).piece = s.piece.downBy k ∧
      invalid s.grid ((on_key_press s Command.HardDrop).piece) = false ∧
      invalid s.grid (s.piece.downBy (k + 1)) = true ∧
      (∀ j : Nat, j ≤ k → invalid s.grid (s.piece.downBy j) = false) ∧
      (on_key_press s Command.HardDrop).piece.location.column = s.piece.location.column ∧
      (on_key_press s Command.HardDrop).piece.positionIndex = s.piece.positionIndex ∧
      (on_key_press s Command.HardDrop).grid = s.grid ∧
      (on_key_press s Command.HardDrop).score = s.score ∧
      (on_key_press s Command.HardDrop).lines = s.lines ∧
      (on_key_press s Command.HardDrop).level = s.level ∧
      (on_key_press s Command.HardDrop).next_piece = s.next_piece ∧
      (on_key_press s Command.HardDrop).gameover = s.gameover ∧
      (on_key_press s Command.HardDrop).sched = s.sched := by
  obtain ⟨k, hdrop, hinv, hmin⟩ := hardDrop_spec s.grid s.piece hblocks
  have hpiece : (on_key_press s Command.HardDrop).piece = s.piece.downBy k := hdrop
  have hj : ∀ j : Nat, j ≤ k → invalid s.grid (s.piece.downBy j) = false := by
    intro j hjk
    cases j with
    | zero => rw [Piece.downBy_zero]; exact hvalid
    | succ i => exact hmin i (by omega)
  refine ⟨k, hpiece, ?_, hinv, hj, ?_, ?_, rfl, rfl, rfl, rfl, rfl, rfl, rfl⟩
  · rw [hpiece]
    exact hj k (le_refl k)
  · rw [hpiece]
    exact rfl
  · rw [hpiece]
    exact rfl

theorem hardDrop_rest_position_witness :
    (invalid stateOverhang.grid stateOverhang.piece = false ∧
      stateOverhang.piece.grid_locations ≠ []) ∧
    (∃ k : Nat,
      (on_key_press stateOverhang Command.HardDrop).piece = stateOverhang.piece.downBy k ∧
      invalid stateOverhang.grid ((on_key_press stateOverhang Command.HardDrop).piece) = false ∧
      invalid stateOverhang.grid (stateOverhang.piece.downBy (k + 1)) = true ∧
      (∀ j : Nat, j ≤ k → invalid stateOverhang.grid (stateOverhang.piece.downBy j) = false) ∧
      (on_key_press stateOverhang Command.HardDrop).piece.location.column
        = stateOverhang.piece.location.column ∧
      (on_key_press stateOverhang Command.HardDrop).piece.positionIndex
        = stateOverhang.piece.positionIndex ∧
      (on_key_press stateOverhang Command.HardDrop).grid = stateOverhang.grid ∧
      (on_key_press stateOverhang Command.HardDrop).score = stateOverhang.score ∧
      (on_key_press stateOverhang Command.HardDrop).lines = stateOverhang.lines ∧
      (on_key_press stateOverhang Command.HardDrop).level = stateOverhang.level ∧
      (on_key_press stateOverhang Command.HardDrop).next_piece = stateOverhang.next_piece ∧
      (on_key_press stateOverhang Command.HardDrop).gameover = stateOverhang.gameover ∧
      (on_key_press stateOverhang Command.HardDrop).sched = stateOverhang.sched) :=
  ⟨⟨by decide, by decide⟩,
   hardDrop_rest_position stateOverhang (by decide) (by decide)⟩

end FallingBlocks

namespace FallingBlocks

theorem on_key_press_frame (s : State) (c : Command) :
    (on_key_press s c).grid = s.grid ∧
    (on_key_press s c).next_piece = s.next_piece ∧
    (on_key_press s c).score = s.score ∧
    (on_key_press s c).lines = s.lines ∧
    (on_key_press s c).level = s.level ∧
    (on_key_press s c).gameover = s.gameover ∧
    (on_key_press s c).sched = s.sched := by
  cases c <;>
    refine ⟨?_, ?_, ?_, ?_, ?_, ?_, ?_⟩ <;>
    simp only [on_key_press] <;>
    first
      | rfl
      | (split <;> rfl)

/-- C3 (amended): the key handler is not guarded by the game-over flag, so a
command received after game over may still mutate the current piece (subject
to the usual validity rollback; see `gameover_command_moves_piece`); what
does hold is that no command ever changes the grid, the next piece, the
score, the lines counter, the level, the game-over flag or the tick timer. -/
theorem gameover_command_frame (s : State) (c : Command) (h : s.gameover = true) :
    (on_key_press s c).grid = s.grid ∧
    (on_key_press s c).next_piece = s.next_piece ∧
    (on_key_press s c).score = s.score ∧
    (on_key_press s c).lines = s.lines ∧
    (on_key_press s c).level = s.level ∧
    (on_key_press s c).gameover = true ∧
    (on_key_press s c).sched = s.sched := by
  obtain ⟨h1, h2, h3, h4, h5, h6, h7⟩ := on_key_press_frame s c
  exact ⟨h1, h2, h3, h4, h5, by rw [h6, h], h7⟩

/-- Session state whose game-over flag is set but whose current piece is
free to move (the board is empty). -/
def stateGameOverFree : State :=
  { grid := List.replicate ROWS emptyRow,
    piece := Piece.O ⟨5, 3⟩,
    next_piece := Piece.I START_LOCATION,
    level := 1,
    lines := 0,
    score := 0,
    gameover := true,
    sched := none }

theorem gameover_command_moves_piece :
    stateGameOverFree.gameover = true ∧
    stateGameOverFree.piece.location.column = 3 ∧
    (on_key_press stateGameOverFree Command.MoveLeft).piece.location.column = 2 :=
  ⟨rfl, rfl, by decide⟩

theorem gameover_command_frame_witness :
    stateGameOverFree.gameover = true ∧
    ((on_key_press stateGameOverFree Command.MoveLeft).grid = stateGameOverFree.grid ∧
     (on_key_press stateGameOverFree Command.MoveLeft).next_piece = stateGameOverFree.next_piece ∧
     (on_key_press stateGameOverFree Command.MoveLeft).score = stateGameOverFree.score ∧
     (on_key_press stateGameOverFree Command.MoveLeft).lines = stateGameOverFree.lines ∧
     (on_key_press stateGameOverFree Command.MoveLeft).level = stateGameOverFree.level ∧
     (on_key_press stateGameOverFree Command.MoveLeft).gameover = true ∧
     (on_key_press stateGameOverFree Command.MoveLeft).sched = stateGameOverFree.sched) :=
  ⟨by decide, gameover_command_frame stateGameOverFree Command.MoveLeft (by decide)⟩

end FallingBlocks

namespace FallingBlocks

/-- Normal form of the tick handler `_down`. -/
theorem down_eq (s : State) (newNext : Piece) :
    down s newNext =
      if invalid s.grid s.piece.move_down then
        check_lines
          (if invalid (bake s.grid s.piece.grid_locations) s.next_piece then
            { s with grid := bake s.grid s.piece.grid_locations,
                     piece := s.next_piece, next_piece := newNext,
                     sched := none, gameover := true }
          else
            { s with grid := bake s.grid s.piece.grid_locations,
                     piece := s.next_piece, next_piece := newNext })
      else { s with piece := s.piece.move_down } := by
  dsimp only [down]
  rw [Piece.move_down_move_up]

/-- Session state one tick before a simultaneous lock, line clear and game
over: the `O` piece locks into rows 0 and 1 completing row 0, and the next
`O` piece is blocked at its spawn cells in row 19. -/
def stateTickOver : State :=
  { grid :=
      [Cell.BLOCK, Cell.EMPTY, Cell.EMPTY, Cell.BLOCK, Cell.BLOCK,
       Cell.BLOCK, Cell.BLOCK, Cell.BLOCK, Cell.BLOCK, Cell.BLOCK] ::
      (List.replicate 18 emptyRow ++
       [[Cell.EMPTY, Cell.EMPTY, Cell.EMPTY, Cell.EMPTY, Cell.BLOCK,
         Cell.BLOCK, Cell.EMPTY, Cell.EMPTY, Cell.EMPTY, Cell.EMPTY]]),
    piece := Piece.O ⟨-1, 0⟩,
    next_piece := Piece.O START_LOCATION,
    level := 1,
    lines := 0,
    score := 0,
    gameover := false,
    sched := some (9 / 10) }

theorem tick_gameover_still_clears_lines :
    (down stateTickOver (Piece.I START_LOCATION)).gameover = true ∧
    (down stateTickOver (Piece.I START_LOCATION)).sched = none ∧
    stateTickOver.lines = 0 ∧
    (down stateTickOver (Piece.I START_LOCATION)).lines = 1 ∧
    stateTickOver.score = 0 ∧
    (down stateTickOver (Piece.I START_LOCATION)).score = 10 :=
  ⟨by decide, by decide, by decide, by decide, by decide, by decide⟩

/-- C2 (amended): when, after a lock, the promoted piece is invalid at its
spawn position, the tick handler sets the game-over flag and cancels the
tick timer, but then still runs the line-clear step unconditionally: on such
a game-over tick the line, score and level counters are updated by any full
rows present (see `tick_gameover_still_clears_lines`). -/
theorem tick_gameover_transition (s : State) (newNext : Piece)
    (hdown : invalid s.grid s.piece.move_down = true)
    (hspawn : invalid (bake s.grid s.piece.grid_locations) s.next_piece = true) :
    down s newNext =
      check_lines
        { s with grid := bake s.grid s.piece.grid_locations,
                 piece := s.next_piece, next_piece := newNext,
                 sched := none, gameover := true } ∧
    (down s newNext).gameover = true := by
  have heq : down s newNext =
      check_lines
        { s with grid := bake s.grid s.piece.grid_locations,
                 piece := s.next_piece, next_piece := newNext,
                 sched := none, gameover := true } := by
    rw [down_eq, if_pos hdown, if_pos hspawn]
  exact ⟨heq, by rw [heq, check_lines_gameover]⟩

theorem tick_gameover_transition_witness :
    (invalid stateTickOver.grid stateTickOver.piece.move_down = true ∧
      invalid (bake stateTickOver.grid stateTickOver.piece.grid_locations)
        stateTickOver.next_piece = true) ∧
    (down stateTickOver (Piece.I START_LOCATION) =
      check_lines
        { stateTickOver with
            grid := bake stateTickOver.grid stateTickOver.piece.grid_locations,
            piece := stateTickOver.next_piece,
            next_piece := Piece.I START_LOCATION,
            sched := none, gameover := true } ∧
      (down stateTickOver (Piece.I START_LOCATION)).gameover = true) :=
  ⟨⟨by decide, by decide⟩,
   tick_gameover_transition stateTickOver (Piece.I START_LOCATION) (by decide) (by decide)⟩

end FallingBlocks

namespace FallingBlocks

theorem scoring_nonneg : ∀ n : Nat, 0 ≤ (listAt SCORING n).getD 0
  | 0 => by decide
  | 1 => by decide
  | 2 => by decide
  | 3 => by decide
  | 4 => by decide
  | n + 5 => by simp [SCORING, listAt]

theorem check_lines_score_mono (s : State) (hlvl : 0 ≤ s.level) :
    s.score ≤ (check_lines s).score := by
  rw [check_lines_score]
  split
  · exact le_add_of_nonneg_right
      (mul_nonneg (scoring_nonneg (fullIndices s.grid).length) hlvl)
  · exact le_refl s.score

theorem down_score_mono (s : State) (newNext : Piece) (hlvl : 0 ≤ s.level) :
    s.score ≤ (down s newNext).score := by
  rw [down_eq]
  split
  · split
    · exact check_lines_score_mono _ hlvl
    · exact check_lines_score_mono _ hlvl
  · exact le_refl s.score

theorem down_gameover_latch (s : State) (newNext : Piece) (h : s.gameover = true) :
    (down s newNext).gameover = true := by
  rw [down_eq]
  split
  · split
    · rw [check_lines_gameover]
    · rw [check_lines_gameover]; exact h
  · exact h

/-- C8: the score never decreases across a tick or a command (in particular
it stays non-negative, and it starts at 0), and the game-over flag is a
one-way latch: it starts false and no tick or command ever resets it. -/
theorem score_monotone_gameover_latch :
    (∀ firstPiece secondPiece : Piece,
      (initState firstPiece secondPiece).score = 0 ∧
      (initState firstPiece secondPiece).gameover = false) ∧
    (∀ (s : State) (newNext : Piece), 0 ≤ s.level →
      s.score ≤ (down s newNext).score ∧
      (0 ≤ s.score → 0 ≤ (down s newNext).score) ∧
      (s.gameover = true → (down s newNext).gameover = true)) ∧
    (∀ (s : State) (c : Command),
      s.score ≤ (on_key_press s c).score ∧
      (0 ≤ s.score → 0 ≤ (on_key_press s c).score) ∧
      (s.gameover = true → (on_key_press s c).gameover = true)) := by
  refine ⟨fun _ _ => ⟨rfl, rfl⟩, ?_, ?_⟩
  · intro s newNext hlvl
    have hmono := down_score_mono s newNext hlvl
    exact ⟨hmono, fun h0 => le_trans h0 hmono,
      down_gameover_latch s newNext⟩
  · intro s c
    obtain ⟨-, -, hscore, -, -, hgo, -⟩ := on_key_press_frame s c
    rw [hscore, hgo]
    exact ⟨le_refl s.score, fun h0 => h0, fun h => h⟩

theorem score_monotone_gameover_latch_witness :
    (0 : Int) ≤ stateTwoFull.level ∧
    (stateTwoFull.score ≤ (down stateTwoFull (Piece.T START_LOCATION)).score ∧
     (0 ≤ stateTwoFull.score → 0 ≤ (down stateTwoFull (Piece.T START_LOCATION)).score) ∧
     (stateTwoFull.gameover = true →
       (down stateTwoFull (Piece.T START_LOCATION)).gameover = true)) :=
  ⟨by decide,
   score_monotone_gameover_latch.2.1 stateTwoFull (Piece.T START_LOCATION) (by decide)⟩

end FallingBlocks
